import Mathlib

/-!
Verification of the RootMounter lifecycle utilities in
`src/examples/mounters/reactMount.js` (the file holds two variants: a React
mounter using `createRoot`, and a Solid mounter using `render`/dispose).

The DOM is modelled as the ordered list of children of `document.body`; each
element carries a node identity (`nodeId`) distinguishing it from other
elements with the same `id` attribute, plus the `id` attribute itself.
Render handles (React roots / Solid disposers) are recorded in a ledger so
that "live" (created and not yet disposed) handles can be counted; the
module-level variables `root`/`dispose` and `rootElement` are fields of an
explicit state record.  `root.render` on a null `root` is a JavaScript
TypeError, so the React `mount` returns `Except`; `unmount` and `cleanup`
never dereference null (they guard with `if (root)` / optional chaining), so
they are total functions.
-/

namespace Mantra

/-- A DOM element: a node identity plus its `id` attribute. -/
structure Node where
  nodeId : Nat
  elemId : String
deriving DecidableEq, Repr

/-- The document: children of `document.body` in order, plus a counter
supplying fresh node identities for `document.createElement`. -/
structure Doc where
  body : List Node
  nextNodeId : Nat
deriving DecidableEq, Repr

/-- `document.getElementById(eid)`: the first element whose `id` is `eid`. -/
def Doc.getElementById (d : Doc) (eid : String) : Option Node :=
  d.body.find? (fun n => n.elemId == eid)

/-- `document.createElement('div'); el.id = eid; document.body.appendChild(el)`:
returns the fresh element and the updated document. -/
def Doc.createAppend (d : Doc) (eid : String) : Node × Doc :=
  (⟨d.nextNodeId, eid⟩, ⟨d.body ++ [⟨d.nextNodeId, eid⟩], d.nextNodeId + 1⟩)

/-- Whether `n.parentNode` is non-null, i.e. `n` is attached to the body. -/
def Doc.containsNode (d : Doc) (n : Node) : Bool :=
  d.body.any (fun m => m.nodeId == n.nodeId)

/-- `n.parentNode.removeChild(n)`: detach the node with `n`'s identity. -/
def Doc.removeNode (d : Doc) (n : Node) : Doc :=
  ⟨d.body.filter (fun m => m.nodeId != n.nodeId), d.nextNodeId⟩

/-- How many elements with `id` attribute `eid` the document holds. -/
def Doc.countId (d : Doc) (eid : String) : Nat :=
  (d.body.filter (fun n => n.elemId == eid)).length

/-- What a mount call renders: the component (by name) and its props. -/
abbrev Content := String × List (String × String)

/-- One render handle ever created: its identity, the container element it was
bound to, whether it has been disposed, and what is currently rendered. -/
structure HandleRec where
  hid : Nat
  target : Node
  disposed : Bool
  rendered : Option Content
deriving DecidableEq, Repr

/-- The ledger of render handles the backend has handed out. -/
structure Handles where
  next : Nat
  created : List HandleRec
deriving DecidableEq, Repr

/-- React's `createRoot(el)`: a fresh handle bound to `el`, nothing rendered. -/
def Handles.createRoot (hs : Handles) (tgt : Node) : Nat × Handles :=
  (hs.next, ⟨hs.next + 1, hs.created ++ [⟨hs.next, tgt, false, none⟩]⟩)

/-- React's `root.render(<Layout {...props}/>)`: replace the content of
handle `h` in place. -/
def Handles.render (hs : Handles) (h : Nat) (c : Content) : Handles :=
  ⟨hs.next,
    hs.created.map (fun r => if r.hid == h then { r with rendered := some c } else r)⟩

/-- React's `root.unmount()` / Solid's `dispose()`: tear down the tree of
handle `h` and mark it dead. -/
def Handles.dispose (hs : Handles) (h : Nat) : Handles :=
  ⟨hs.next,
    hs.created.map
      (fun r => if r.hid == h then { r with disposed := true, rendered := none } else r)⟩

/-- Solid's `render(() => createComponent(Layout, props), el)`: a fresh handle
bound to `el` with the content already rendered; returns the disposer. -/
def Handles.solidRender (hs : Handles) (c : Content) (tgt : Node) : Nat × Handles :=
  (hs.next, ⟨hs.next + 1, hs.created ++ [⟨hs.next, tgt, false, some c⟩]⟩)

/-- The identities of the handles that are live (created, not disposed). -/
def Handles.liveHids (hs : Handles) : List Nat :=
  (hs.created.filter (fun r => !r.disposed)).map HandleRec.hid

/-- Every record of handle `h` is marked disposed. -/
def Handles.disposedAt (hs : Handles) (h : Nat) : Prop :=
  ∀ r ∈ hs.created, r.hid = h → r.disposed = true

instance (hs : Handles) (h : Nat) : Decidable (hs.disposedAt h) := by
  unfold Handles.disposedAt; infer_instance

/-- The guard `!rootElement || rootElement.id !== elementId` shared by both
variants' `mount`. -/
def needNewElement (rootElement : Option Node) (elementId : String) : Bool :=
  match rootElement with
  | none => true
  | some e => e.elemId != elementId

/-- Module state of the React variant: `let root = null; let rootElement = null;`
plus the document and the handle ledger. -/
structure ReactState where
  doc : Doc
  handles : Handles
  root : Option Nat
  rootElement : Option Node
deriving DecidableEq, Repr

/-- The state before any call: empty document, no handles, both refs null. -/
def ReactState.init : ReactState := ⟨⟨[], 0⟩, ⟨0, []⟩, none, none⟩

namespace ReactMounter

/-- `mount(Layout, props, elementId)`, React variant (reactMount.js:19-39):
when `rootElement` is null or its id differs, look the element up, create and
append it if absent, and `createRoot` it; then `root.render(...)`.  When the
guard is skipped and `root` is null (the state `unmount` leaves), the call
`root.render` throws a TypeError, modelled as `Except.error`. -/
def mount (Layout : String) (props : List (String × String)) (elementId : String)
    (s : ReactState) : Except String ReactState :=
  let s1 :=
    if needNewElement s.rootElement elementId then
      match s.doc.getElementById elementId with
      | some e =>
        let ch := s.handles.createRoot e
        { s with rootElement := some e, root := some ch.1, handles := ch.2 }
      | none =>
        let cd := s.doc.createAppend elementId
        let ch := s.handles.createRoot cd.1
        { s with doc := cd.2, rootElement := some cd.1, root := some ch.1, handles := ch.2 }
    else s
  match s1.root with
  | none => Except.error "TypeError: Cannot read properties of null (reading render)"
  | some h => Except.ok { s1 with handles := s1.handles.render h (Layout, props) }

/-- `unmount()`, React variant (reactMount.js:44-49): `if (root) { root.unmount(); root = null; }`. -/
def unmount (s : ReactState) : ReactState :=
  match s.root with
  | some h => { s with handles := s.handles.dispose h, root := none }
  | none => s

/-- `cleanup()`, React variant (reactMount.js:54-60): `unmount()`, then remove
`rootElement` from its parent when attached, then `rootElement = null`. -/
def cleanup (s : ReactState) : ReactState :=
  let s1 := unmount s
  let s2 :=
    match s1.rootElement with
    | some e => if s1.doc.containsNode e then { s1 with doc := s1.doc.removeNode e } else s1
    | none => s1
  { s2 with rootElement := none }

/-- A run of consecutive `mount` calls, all with the same `elementId`. -/
def mountSeq (calls : List Content) (elementId : String) (s : ReactState) :
    Except String ReactState :=
  match calls with
  | [] => Except.ok s
  | c :: rest => (mount c.1 c.2 elementId s).bind (mountSeq rest elementId)

end ReactMounter

/-- Module state of the Solid variant: `let dispose = null; let rootElement = null;`
plus the document and the handle ledger. -/
structure SolidState where
  doc : Doc
  handles : Handles
  disp : Option Nat
  rootElement : Option Node
deriving DecidableEq, Repr

/-- The state before any call: empty document, no handles, both refs null. -/
def SolidState.init : SolidState := ⟨⟨[], 0⟩, ⟨0, []⟩, none, none⟩

namespace SolidMounter

/-- `mount(Layout, props, elementId)`, Solid variant (reactMount.js:78-99):
first `if (dispose) dispose();`, then acquire or create the container exactly
as the React variant does, then `dispose = render(() => createComponent(Layout,
props), rootElement)`.  After the acquire step `rootElement` is always set, so
the final `match` never takes its `none` arm. -/
def mount (Layout : String) (props : List (String × String)) (elementId : String)
    (s : SolidState) : SolidState :=
  let s0 :=
    match s.disp with
    | some h => { s with handles := s.handles.dispose h }
    | none => s
  let s1 :=
    if needNewElement s0.rootElement elementId then
      match s0.doc.getElementById elementId with
      | some e => { s0 with rootElement := some e }
      | none =>
        let cd := s0.doc.createAppend elementId
        { s0 with doc := cd.2, rootElement := some cd.1 }
    else s0
  match s1.rootElement with
  | some e =>
    let ch := s1.handles.solidRender (Layout, props) e
    { s1 with handles := ch.2, disp := some ch.1 }
  | none => s1

/-- `unmount()`, Solid variant (reactMount.js:104-109): `if (dispose) { dispose(); dispose = null; }`. -/
def unmount (s : SolidState) : SolidState :=
  match s.disp with
  | some h => { s with handles := s.handles.dispose h, disp := none }
  | none => s

/-- `cleanup()`, Solid variant (reactMount.js:114-120): `unmount()`, then remove
`rootElement` from its parent when attached, then `rootElement = null`. -/
def cleanup (s : SolidState) : SolidState :=
  let s1 := unmount s
  let s2 :=
    match s1.rootElement with
    | some e => if s1.doc.containsNode e then { s1 with doc := s1.doc.removeNode e } else s1
    | none => s1
  { s2 with rootElement := none }

/-- A run of consecutive `mount` calls, all with the same `elementId`. -/
def mountSeq (calls : List Content) (elementId : String) (s : SolidState) : SolidState :=
  match calls with
  | [] => s
  | c :: rest => mountSeq rest elementId (mount c.1 c.2 elementId s)

end SolidMounter

/-- Dispose a handle when one is stored (the `if (dispose) dispose();` step). -/
def Handles.disposeOpt (hs : Handles) (o : Option Nat) : Handles :=
  match o with
  | some h => hs.dispose h
  | none => hs

/-! ### Characterization of `mount`, one lemma per control-flow path -/

theorem ReactMounter.mount_skip (s : ReactState) (e : Node) (h : Nat) (L : String)
    (p : List (String × String)) (eid : String)
    (he : s.rootElement = some e) (hid : e.elemId = eid) (hr : s.root = some h) :
    ReactMounter.mount L p eid s =
      Except.ok { s with handles := s.handles.render h (L, p) } := by
  have hg : needNewElement s.rootElement eid = false := by
    rw [he]; simp [needNewElement, hid]
  simp [ReactMounter.mount, hg, hr]

theorem ReactMounter.mount_nullRender (s : ReactState) (e : Node) (L : String)
    (p : List (String × String)) (eid : String)
    (he : s.rootElement = some e) (hid : e.elemId = eid) (hr : s.root = none) :
    ReactMounter.mount L p eid s =
      Except.error "TypeError: Cannot read properties of null (reading render)" := by
  have hg : needNewElement s.rootElement eid = false := by
    rw [he]; simp [needNewElement, hid]
  simp [ReactMounter.mount, hg, hr]

theorem ReactMounter.mount_found (s : ReactState) (e : Node) (L : String)
    (p : List (String × String)) (eid : String)
    (hg : needNewElement s.rootElement eid = true)
    (hf : s.doc.getElementById eid = some e) :
    ReactMounter.mount L p eid s =
      Except.ok ⟨s.doc, ((s.handles.createRoot e).2).render s.handles.next (L, p),
        some s.handles.next, some e⟩ := by
  simp [ReactMounter.mount, hg, hf, Handles.createRoot]

theorem ReactMounter.mount_create (s : ReactState) (L : String)
    (p : List (String × String)) (eid : String)
    (hg : needNewElement s.rootElement eid = true)
    (hf : s.doc.getElementById eid = none) :
    ReactMounter.mount L p eid s =
      Except.ok ⟨(s.doc.createAppend eid).2,
        ((s.handles.createRoot ⟨s.doc.nextNodeId, eid⟩).2).render s.handles.next (L, p),
        some s.handles.next, some ⟨s.doc.nextNodeId, eid⟩⟩ := by
  simp [ReactMounter.mount, hg, hf, Doc.createAppend, Handles.createRoot]

theorem SolidMounter.solid_mount_skip (t : SolidState) (e : Node) (L : String)
    (p : List (String × String)) (eid : String)
    (he : t.rootElement = some e) (hid : e.elemId = eid) :
    SolidMounter.mount L p eid t =
      ⟨t.doc, ((t.handles.disposeOpt t.disp).solidRender (L, p) e).2,
        some t.handles.next, some e⟩ := by
  have hg : needNewElement (some e) eid = false := by
    simp [needNewElement, hid]
  cases hd : t.disp with
  | none => simp [SolidMounter.mount, Handles.disposeOpt, hd, he, hg, Handles.solidRender]
  | some h0 =>
    simp [SolidMounter.mount, Handles.disposeOpt, hd, he, hg, Handles.solidRender,
      Handles.dispose]

theorem SolidMounter.solid_mount_found (t : SolidState) (e : Node) (L : String)
    (p : List (String × String)) (eid : String)
    (hg : needNewElement t.rootElement eid = true)
    (hf : t.doc.getElementById eid = some e) :
    SolidMounter.mount L p eid t =
      ⟨t.doc, ((t.handles.disposeOpt t.disp).solidRender (L, p) e).2,
        some t.handles.next, some e⟩ := by
  cases hd : t.disp with
  | none => simp [SolidMounter.mount, Handles.disposeOpt, hd, hg, hf, Handles.solidRender]
  | some h0 =>
    simp [SolidMounter.mount, Handles.disposeOpt, hd, hg, hf, Handles.solidRender,
      Handles.dispose]

theorem SolidMounter.solid_mount_create (t : SolidState) (L : String)
    (p : List (String × String)) (eid : String)
    (hg : needNewElement t.rootElement eid = true)
    (hf : t.doc.getElementById eid = none) :
    SolidMounter.mount L p eid t =
      ⟨(t.doc.createAppend eid).2,
        ((t.handles.disposeOpt t.disp).solidRender (L, p) ⟨t.doc.nextNodeId, eid⟩).2,
        some t.handles.next, some ⟨t.doc.nextNodeId, eid⟩⟩ := by
  cases hd : t.disp with
  | none =>
    simp [SolidMounter.mount, Handles.disposeOpt, hd, hg, hf, Handles.solidRender,
      Doc.createAppend]
  | some h0 =>
    simp [SolidMounter.mount, Handles.disposeOpt, hd, hg, hf, Handles.solidRender,
      Handles.dispose, Doc.createAppend]

/-! ### Handle-ledger lemmas -/

theorem Handles.disposeOpt_next (hs : Handles) (o : Option Nat) :
    (hs.disposeOpt o).next = hs.next := by
  cases o <;> rfl

theorem Handles.disposedAt_dispose (hs : Handles) (h : Nat) :
    (hs.dispose h).disposedAt h := by
  intro r hr hid
  rw [Handles.dispose] at hr
  simp only [List.mem_map] at hr
  obtain ⟨r0, _, rfl⟩ := hr
  by_cases hh : r0.hid = h
  · simp [hh]
  · simp [hh] at hid

theorem Handles.disposedAt_solidRender (hs : Handles) (h : Nat) (c : Content) (tgt : Node)
    (hd : hs.disposedAt h) (hne : h ≠ hs.next) :
    ((hs.solidRender c tgt).2).disposedAt h := by
  intro r hr hid
  rw [Handles.solidRender] at hr
  simp only [List.mem_append, List.mem_singleton] at hr
  cases hr with
  | inl hmem => exact hd r hmem hid
  | inr hnew => subst hnew; exact absurd hid.symm hne

theorem Handles.live_filter_nil_of_dispose (hs : Handles) (h : Nat)
    (hyp : ∀ r ∈ hs.created, r.disposed = false → r.hid = h) :
    (hs.dispose h).created.filter (fun r => !r.disposed) = [] := by
  rw [Handles.dispose]
  simp only [List.filter_eq_nil_iff, List.mem_map]
  rintro r ⟨r0, hr0, rfl⟩
  by_cases hh : r0.hid = h
  · simp [hh]
  · have hdis : r0.disposed = true := by
      cases hdis : r0.disposed
      · exact absurd (hyp r0 hr0 hdis) hh
      · rfl
    simp [hh, hdis]

theorem Handles.liveHids_dispose_nil (hs : Handles) (h : Nat)
    (hyp : ∀ r ∈ hs.created, r.disposed = false → r.hid = h) :
    (hs.dispose h).liveHids = [] := by
  rw [Handles.liveHids, Handles.live_filter_nil_of_dispose hs h hyp]
  rfl

theorem Handles.liveHids_solidRender (hs : Handles) (c : Content) (tgt : Node) :
    ((hs.solidRender c tgt).2).liveHids = hs.liveHids ++ [hs.next] := by
  simp [Handles.solidRender, Handles.liveHids, List.filter_append]

/-! ### Invariant of the Solid variant -/

/-- Well-formedness of the handle ledger: every identity is below `next` and
identities are pairwise distinct. -/
abbrev HandlesWF (hs : Handles) : Prop :=
  (∀ r ∈ hs.created, r.hid < hs.next) ∧ (hs.created.map HandleRec.hid).Nodup

/-- Invariant of the Solid variant's state: the ledger is well formed, the
stored disposer identity is below `next`, and every live handle is the stored
one (the code never overwrites `dispose` without calling it first). -/
abbrev SolidInv (t : SolidState) : Prop :=
  HandlesWF t.handles ∧
  (∀ h ∈ t.disp, h < t.handles.next) ∧
  (∀ r ∈ t.handles.created, r.disposed = false → t.disp = some r.hid)

theorem Handles.mem_dispose (hs : Handles) (h : Nat) (r : HandleRec)
    (hr : r ∈ (hs.dispose h).created) :
    ∃ r0 ∈ hs.created, r.hid = r0.hid ∧ (r.disposed = false → r0.disposed = false ∧ r0.hid ≠ h) := by
  rw [Handles.dispose] at hr
  simp only [List.mem_map] at hr
  obtain ⟨r0, hr0, rfl⟩ := hr
  by_cases hh : r0.hid = h
  · exact ⟨r0, hr0, by simp [hh], by simp [hh]⟩
  · exact ⟨r0, hr0, by simp [hh], fun hd => ⟨by simpa [hh] using hd, hh⟩⟩

theorem Handles.dispose_map_hid (hs : Handles) (h : Nat) :
    (hs.dispose h).created.map HandleRec.hid = hs.created.map HandleRec.hid := by
  rw [Handles.dispose]
  simp only [List.map_map]
  apply List.map_congr_left
  intro r _
  by_cases hh : r.hid = h <;> simp [hh]

theorem HandlesWF.dispose (hs : Handles) (h : Nat) (hwf : HandlesWF hs) :
    HandlesWF (hs.dispose h) := by
  constructor
  · intro r hr
    obtain ⟨r0, hr0, hhid, _⟩ := Handles.mem_dispose hs h r hr
    rw [Handles.dispose]
    exact hhid ▸ hwf.1 r0 hr0
  · rw [Handles.dispose_map_hid]
    exact hwf.2

theorem HandlesWF.disposeOpt (hs : Handles) (o : Option Nat) (hwf : HandlesWF hs) :
    HandlesWF (hs.disposeOpt o) := by
  cases o with
  | none => exact hwf
  | some h => exact HandlesWF.dispose hs h hwf

theorem Handles.mem_disposeOpt (hs : Handles) (o : Option Nat) (r : HandleRec)
    (hr : r ∈ (hs.disposeOpt o).created) :
    ∃ r0 ∈ hs.created, r.hid = r0.hid ∧
      (r.disposed = false → r0.disposed = false ∧ ∀ h, o = some h → r0.hid ≠ h) := by
  cases o with
  | none => exact ⟨r, hr, rfl, fun hd => ⟨hd, by intro h hh; cases hh⟩⟩
  | some h =>
    obtain ⟨r0, hr0, hhid, himp⟩ := Handles.mem_dispose hs h r hr
    refine ⟨r0, hr0, hhid, fun hd => ⟨(himp hd).1, ?_⟩⟩
    intro h1 hh1
    cases hh1
    exact (himp hd).2

theorem HandlesWF.solidRender (hs : Handles) (c : Content) (tgt : Node)
    (hwf : HandlesWF hs) : HandlesWF ((hs.solidRender c tgt).2) := by
  constructor
  · intro r hr
    rw [Handles.solidRender] at hr ⊢
    simp only [List.mem_append, List.mem_singleton] at hr
    cases hr with
    | inl hmem => exact Nat.lt_succ_of_lt (hwf.1 r hmem)
    | inr hnew => subst hnew; exact Nat.lt_succ_self _
  · rw [Handles.solidRender]
    simp only [List.map_append, List.map_cons, List.map_nil, List.nodup_append]
    refine ⟨hwf.2, List.nodup_singleton _, ?_⟩
    intro x hx hx1
    simp only [List.mem_singleton] at hx1
    subst hx1
    simp only [List.mem_map] at hx
    obtain ⟨r, hr, hhid⟩ := hx
    exact absurd (hhid ▸ hwf.1 r hr) (Nat.lt_irrefl _)

/-- A single Solid `mount` call from an invariant state: the invariant is
preserved, the new disposer is the fresh identity `t.handles.next`, and any
previously stored handle is disposed in the result and differs from the new
one. -/
theorem SolidMounter.mount_inv (t : SolidState) (L : String)
    (p : List (String × String)) (eid : String) (hinv : SolidInv t) :
    SolidInv (SolidMounter.mount L p eid t) ∧
    (SolidMounter.mount L p eid t).disp = some t.handles.next ∧
    (SolidMounter.mount L p eid t).handles.liveHids = [t.handles.next] ∧
    (∀ h0, t.disp = some h0 →
      (SolidMounter.mount L p eid t).handles.disposedAt h0 ∧ h0 ≠ t.handles.next) := by
  obtain ⟨hwf, hbound, hlive⟩ := hinv
  -- the three control-flow paths all produce the same handle ledger
  have key : ∀ e : Node,
      SolidInv (⟨t.doc, ((t.handles.disposeOpt t.disp).solidRender (L, p) e).2,
        some t.handles.next, some e⟩ : SolidState) ∧
      ((t.handles.disposeOpt t.disp).solidRender (L, p) e).2.liveHids = [t.handles.next] ∧
      (∀ h0, t.disp = some h0 →
        ((t.handles.disposeOpt t.disp).solidRender (L, p) e).2.disposedAt h0 ∧
          h0 ≠ t.handles.next) := by
    intro e
    have hnext : (t.handles.disposeOpt t.disp).next = t.handles.next :=
      Handles.disposeOpt_next t.handles t.disp
    have hwf1 : HandlesWF (t.handles.disposeOpt t.disp) :=
      HandlesWF.disposeOpt t.handles t.disp hwf
    have hlivenil : (t.handles.disposeOpt t.disp).liveHids = [] ∨ t.disp = none := by
      cases hd : t.disp with
      | none => exact Or.inr rfl
      | some h0 =>
        refine Or.inl ?_
        rw [Handles.disposeOpt]
        exact Handles.liveHids_dispose_nil t.handles h0 (by
          intro r hr hrd
          have := hlive r hr hrd
          rw [hd] at this
          exact (Option.some_inj.mp this).symm)
    constructor
    · refine ⟨hnext ▸ HandlesWF.solidRender _ (L, p) e hwf1, ?_, ?_⟩
      · intro h hh
        simp only [Option.mem_def, Option.some_inj] at hh
        subst hh
        rw [Handles.solidRender, hnext]
        exact Nat.lt_succ_self _
      · intro r hr hrd
        rw [Handles.solidRender] at hr
        simp only [List.mem_append, List.mem_singleton] at hr
        cases hr with
        | inl hmem =>
          obtain ⟨r0, hr0, hhid, himp⟩ := Handles.mem_disposeOpt t.handles t.disp r hmem
          obtain ⟨hl0, hne0⟩ := himp hrd
          have := hlive r0 hr0 hl0
          exact absurd rfl (hne0 r0.hid this)
        | inr hnew => subst hnew; simp [hnext]
    constructor
    · rw [Handles.liveHids_solidRender, hnext]
      cases hlivenil with
      | inl hnil => rw [hnil]; rfl
      | inr hnone => rw [hnone, Handles.disposeOpt]; rw [hnone] at hlive
                     have : t.handles.liveHids = [] := by
                       rw [Handles.liveHids]
                       have : t.handles.created.filter (fun r => !r.disposed) = [] := by
                         simp only [List.filter_eq_nil_iff]
                         intro r hr
                         cases hrd : r.disposed
                         · exact absurd (hlive r hr hrd) (by simp)
                         · simp [hrd]
                       rw [this]; rfl
                     rw [this]; rfl
    · intro h0 hd0
      have hb : h0 < t.handles.next := hbound h0 (by rw [hd0]; rfl)
      have hda : (t.handles.disposeOpt t.disp).disposedAt h0 := by
        rw [hd0, Handles.disposeOpt]
        exact Handles.disposedAt_dispose t.handles h0
      refine ⟨?_, Nat.ne_of_lt hb⟩
      have hne : h0 ≠ (t.handles.disposeOpt t.disp).next := by
        rw [hnext]; exact Nat.ne_of_lt hb
      exact Handles.disposedAt_solidRender _ h0 (L, p) e hda hne
  -- now split on the control flow and use the characterization lemmas
  by_cases hg : needNewElement t.rootElement eid = true
  · cases hf : t.doc.getElementById eid with
    | some e =>
      rw [SolidMounter.solid_mount_found t e L p eid hg hf]
      obtain ⟨hi, hl, hd⟩ := key e
      exact ⟨hi, rfl, hl, hd⟩
    | none =>
      rw [SolidMounter.solid_mount_create t L p eid hg hf]
      obtain ⟨hi, hl, hd⟩ := key ⟨t.doc.nextNodeId, eid⟩
      exact ⟨hi, rfl, hl, hd⟩
  · have hsome : ∃ e, t.rootElement = some e ∧ e.elemId = eid := by
      revert hg
      cases he : t.rootElement with
      | none => intro hg; exact absurd rfl hg
      | some e =>
        intro hg
        refine ⟨e, rfl, ?_⟩
        simpa [needNewElement] using hg
    obtain ⟨e, he, hide⟩ := hsome
    rw [SolidMounter.solid_mount_skip t e L p eid he hide]
    obtain ⟨hi, hl, hd⟩ := key e
    exact ⟨hi, rfl, hl, hd⟩

/-! ### C1, C4, C5, C7 -/

/-- C1: the spec's transition table says `mount` succeeds from every reachable
state, in particular Detached → Mounted (mount after unmount with the same
elementId).  The React variant instead keeps `rootElement` set after `unmount`,
so the re-mount skips `createRoot` and calls `root.render` with `root === null`,
throwing a TypeError.  This theorem evaluates the code at the failing input:
`mount("Layout", {content:"X"}, "app")`, `unmount()`, then the same `mount`
again, starting from the empty document. -/
theorem c1_react_mount_after_unmount_throws :
    (ReactMounter.mount "Layout" [("content", "X")] "app" ReactState.init).bind
      (fun s => ReactMounter.mount "Layout" [("content", "X")] "app"
        (ReactMounter.unmount s)) =
    Except.error "TypeError: Cannot read properties of null (reading render)" := by
  rfl

/-- C4: `unmount` only disposes the stored render handle and clears the stored
handle reference: in both variants the document (hence any owned container
element) and the stored container reference are untouched, the handle
reference is null afterwards, the ledger changes only by disposing the stored
handle, and nothing at all changes when no handle was stored. -/
theorem c4_unmount_only_disposes_handle (s : ReactState) (t : SolidState) :
    (ReactMounter.unmount s).doc = s.doc ∧
    (ReactMounter.unmount s).rootElement = s.rootElement ∧
    (ReactMounter.unmount s).root = none ∧
    (∀ h, s.root = some h → (ReactMounter.unmount s).handles = s.handles.dispose h) ∧
    (s.root = none → ReactMounter.unmount s = s) ∧
    (SolidMounter.unmount t).doc = t.doc ∧
    (SolidMounter.unmount t).rootElement = t.rootElement ∧
    (SolidMounter.unmount t).disp = none ∧
    (∀ h, t.disp = some h → (SolidMounter.unmount t).handles = t.handles.dispose h) ∧
    (t.disp = none → SolidMounter.unmount t = t) := by
  unfold ReactMounter.unmount SolidMounter.unmount
  cases hr : s.root <;> cases hd : t.disp <;> simp [hr, hd]

/-- C5: `unmount` is idempotent in both variants: with no stored render handle
it is a no-op returning the state unchanged (it cannot throw, being a total
function), and a second consecutive `unmount` changes nothing. -/
theorem c5_unmount_idempotent (s : ReactState) (t : SolidState) :
    (s.root = none → ReactMounter.unmount s = s) ∧
    ReactMounter.unmount (ReactMounter.unmount s) = ReactMounter.unmount s ∧
    (t.disp = none → SolidMounter.unmount t = t) ∧
    SolidMounter.unmount (SolidMounter.unmount t) = SolidMounter.unmount t := by
  unfold ReactMounter.unmount SolidMounter.unmount
  cases hr : s.root <;> cases hd : t.disp <;> simp [hr, hd]

theorem ReactMounter.cleanup_idle (s : ReactState) (h1 : s.root = none)
    (h2 : s.rootElement = none) : ReactMounter.cleanup s = s := by
  obtain ⟨d, hs, r, re⟩ := s
  simp only at h1 h2
  subst h1; subst h2
  rfl

theorem SolidMounter.solid_cleanup_idle (t : SolidState) (h1 : t.disp = none)
    (h2 : t.rootElement = none) : SolidMounter.cleanup t = t := by
  obtain ⟨d, hs, r, re⟩ := t
  simp only at h1 h2
  subst h1; subst h2
  rfl

theorem ReactMounter.unmount_root (s : ReactState) :
    (ReactMounter.unmount s).root = none := by
  unfold ReactMounter.unmount
  cases hr : s.root <;> simp [hr]

theorem SolidMounter.unmount_disp (t : SolidState) :
    (SolidMounter.unmount t).disp = none := by
  unfold SolidMounter.unmount
  cases hd : t.disp <;> simp [hd]

theorem ReactMounter.cleanup_root (s : ReactState) :
    (ReactMounter.cleanup s).root = none ∧ (ReactMounter.cleanup s).rootElement = none := by
  unfold ReactMounter.cleanup
  have h := ReactMounter.unmount_root s
  refine ⟨?_, rfl⟩
  cases he : (ReactMounter.unmount s).rootElement with
  | none => simpa [he] using h
  | some e =>
    by_cases hc : (ReactMounter.unmount s).doc.containsNode e = true <;> simp [he, hc, h]

theorem SolidMounter.cleanup_disp (t : SolidState) :
    (SolidMounter.cleanup t).disp = none ∧ (SolidMounter.cleanup t).rootElement = none := by
  unfold SolidMounter.cleanup
  have h := SolidMounter.unmount_disp t
  refine ⟨?_, rfl⟩
  cases he : (SolidMounter.unmount t).rootElement with
  | none => simpa [he] using h
  | some e =>
    by_cases hc : (SolidMounter.unmount t).doc.containsNode e = true <;> simp [he, hc, h]

/-- C7: `cleanup` on a fully Idle state is never an error (it is a total
function whose null checks make it a no-op): on the initial state it returns
the initial state, whose document is empty; on any state with both references
null it changes nothing; and a second consecutive `cleanup` changes nothing. -/
theorem c7_cleanup_idle_noop (s : ReactState) (t : SolidState) :
    ReactMounter.cleanup ReactState.init = ReactState.init ∧
    ReactState.init.doc.body = [] ∧
    (s.root = none → s.rootElement = none → ReactMounter.cleanup s = s) ∧
    ReactMounter.cleanup (ReactMounter.cleanup s) = ReactMounter.cleanup s ∧
    SolidMounter.cleanup SolidState.init = SolidState.init ∧
    SolidState.init.doc.body = [] ∧
    (t.disp = none → t.rootElement = none → SolidMounter.cleanup t = t) ∧
    SolidMounter.cleanup (SolidMounter.cleanup t) = SolidMounter.cleanup t := by
  refine ⟨rfl, rfl, fun h1 h2 => ReactMounter.cleanup_idle s h1 h2,
    ReactMounter.cleanup_idle _ (ReactMounter.cleanup_root s).1 (ReactMounter.cleanup_root s).2,
    rfl, rfl, fun h1 h2 => SolidMounter.solid_cleanup_idle t h1 h2,
    SolidMounter.solid_cleanup_idle _ (SolidMounter.cleanup_disp t).1 (SolidMounter.cleanup_disp t).2⟩

/-! ### C10 and C2 -/

/-- A concrete Solid state with one mounted root, used to instantiate
hypothesis-bearing theorems. -/
def tEx : SolidState := SolidMounter.mount "L" [] "app" SolidState.init

/-- C10: in the Solid variant every `mount` first disposes the stored render
handle (when one exists) before rendering — also when `elementId` is unchanged,
since the theorem quantifies over every `elementId` including the stored one.
From an invariant state the result has exactly one live render handle, the
freshly created one, so at most one live handle ever exists; and a remount is
a full dispose-and-recreate: the old identity is disposed in the result and
differs from the new identity. -/
theorem c10_solid_mount_disposes_then_recreates (t : SolidState) (L : String)
    (p : List (String × String)) (eid : String) (hinv : SolidInv t) :
    SolidInv (SolidMounter.mount L p eid t) ∧
    (SolidMounter.mount L p eid t).disp = some t.handles.next ∧
    (SolidMounter.mount L p eid t).handles.liveHids = [t.handles.next] ∧
    (∀ h0, t.disp = some h0 →
      (SolidMounter.mount L p eid t).handles.disposedAt h0 ∧ h0 ≠ t.handles.next) :=
  SolidMounter.mount_inv t L p eid hinv

/-- Witness for C10 at the concrete state `tEx` (where `dispose` is handle 0):
remounting with the same elementId "app" disposes handle 0 and creates the
fresh handle 1 as the only live one. -/
theorem c10_witness :
    SolidInv (SolidMounter.mount "M" [] "app" tEx) ∧
    (SolidMounter.mount "M" [] "app" tEx).disp = some tEx.handles.next ∧
    (SolidMounter.mount "M" [] "app" tEx).handles.liveHids = [tEx.handles.next] ∧
    (∀ h0, tEx.disp = some h0 →
      (SolidMounter.mount "M" [] "app" tEx).handles.disposedAt h0 ∧
        h0 ≠ tEx.handles.next) :=
  c10_solid_mount_disposes_then_recreates tEx "M" [] "app" (by decide)

/-- C2 counterexample: in the React variant (one of the claim's two cited
implementations) two consecutive mounts with different elementIds leave BOTH
render handles live: handle 0, bound to the "a" container, is never disposed
when handle 1 is created for the "b" container — two live render handles
exist simultaneously, contradicting the claim as stated. -/
theorem c2_react_two_live_handles_counterexample :
    ((ReactMounter.mount "A" [] "a" ReactState.init).bind
      (ReactMounter.mount "B" [] "b")).map (fun s => s.handles.liveHids) =
    Except.ok [0, 1] := by
  rfl

/-- C2 amended: in the Solid variant, for consecutive `mount` calls whose
`elementId` differs, the first call's render handle is disposed by the second
call and is distinct from the handle the second call creates, and exactly one
live handle remains afterwards.  The React variant does not dispose the
previous handle (see the counterexample). -/
theorem c2_solid_dispose_before_create (t : SolidState) (L1 L2 : String)
    (p1 p2 : List (String × String)) (eid1 eid2 : String)
    (hinv : SolidInv t) (hne : eid1 ≠ eid2) :
    ∃ h1 h2,
      (SolidMounter.mount L1 p1 eid1 t).disp = some h1 ∧
      (SolidMounter.mount L2 p2 eid2 (SolidMounter.mount L1 p1 eid1 t)).disp = some h2 ∧
      h1 ≠ h2 ∧
      (SolidMounter.mount L2 p2 eid2
        (SolidMounter.mount L1 p1 eid1 t)).handles.disposedAt h1 ∧
      (SolidMounter.mount L2 p2 eid2
        (SolidMounter.mount L1 p1 eid1 t)).handles.liveHids = [h2] := by
  obtain ⟨hinv1, hdisp1, _, _⟩ := SolidMounter.mount_inv t L1 p1 eid1 hinv
  obtain ⟨_, hdisp2, hlive2, hdispose2⟩ :=
    SolidMounter.mount_inv (SolidMounter.mount L1 p1 eid1 t) L2 p2 eid2 hinv1
  exact ⟨t.handles.next, (SolidMounter.mount L1 p1 eid1 t).handles.next, hdisp1, hdisp2,
    (hdispose2 t.handles.next hdisp1).2, (hdispose2 t.handles.next hdisp1).1, hlive2⟩

/-- Witness for C2's amended theorem at the empty initial Solid state with
elementIds "a" then "b". -/
theorem c2_witness :
    ∃ h1 h2,
      (SolidMounter.mount "A" [] "a" SolidState.init).disp = some h1 ∧
      (SolidMounter.mount "B" [] "b"
        (SolidMounter.mount "A" [] "a" SolidState.init)).disp = some h2 ∧
      h1 ≠ h2 ∧
      (SolidMounter.mount "B" [] "b"
        (SolidMounter.mount "A" [] "a" SolidState.init)).handles.disposedAt h1 ∧
      (SolidMounter.mount "B" [] "b"
        (SolidMounter.mount "A" [] "a" SolidState.init)).handles.liveHids = [h2] :=
  c2_solid_dispose_before_create SolidState.init "A" "B" [] [] "a" "b" (by decide)
    (by decide)


/-! ### Document lemmas and creation helpers for C8 and C9 -/

theorem needNewElement_of_absent (d : Doc) (re : Option Node) (eid : String)
    (hf : d.getElementById eid = none) (hatt : ∀ e ∈ re, e ∈ d.body) :
    needNewElement re eid = true := by
  cases re with
  | none => rfl
  | some e =>
    have he : e ∈ d.body := hatt e rfl
    rw [Doc.getElementById, List.find?_eq_none] at hf
    have hne := hf e he
    simp only [needNewElement]
    simpa using hne

theorem Handles.createRoot_render_mem (hs : Handles) (tgt : Node) (c : Content) :
    (⟨hs.next, tgt, false, some c⟩ : HandleRec) ∈
      (((hs.createRoot tgt).2).render hs.next c).created := by
  rw [Handles.createRoot, Handles.render]
  simp only [List.map_append, List.mem_append]
  right
  simp

theorem Handles.solidRender_mem (hs : Handles) (c : Content) (tgt : Node) :
    (⟨hs.next, tgt, false, some c⟩ : HandleRec) ∈ ((hs.solidRender c tgt).2).created := by
  rw [Handles.solidRender]
  simp

/-- C8: `mount` called with an elementId absent from the document creates a new
div with that id, appends it to the body, and renders the component with the
given props into it — in both variants.  The attachment hypothesis (a stored
container is in the body) is the state invariant every reachable state enjoys;
it rules out a stale stored reference masking the absence. -/
theorem c8_mount_creates_and_renders (s : ReactState) (t : SolidState) (L : String)
    (p : List (String × String)) (eid : String)
    (hf : s.doc.getElementById eid = none)
    (hatt : ∀ e ∈ s.rootElement, e ∈ s.doc.body)
    (htf : t.doc.getElementById eid = none)
    (htatt : ∀ e ∈ t.rootElement, e ∈ t.doc.body) :
    (∃ s1, ReactMounter.mount L p eid s = Except.ok s1 ∧
      s1.doc.body = s.doc.body ++ [⟨s.doc.nextNodeId, eid⟩] ∧
      s1.rootElement = some ⟨s.doc.nextNodeId, eid⟩ ∧
      s1.root = some s.handles.next ∧
      (⟨s.handles.next, ⟨s.doc.nextNodeId, eid⟩, false, some (L, p)⟩ : HandleRec) ∈
        s1.handles.created) ∧
    ((SolidMounter.mount L p eid t).doc.body = t.doc.body ++ [⟨t.doc.nextNodeId, eid⟩] ∧
      (SolidMounter.mount L p eid t).rootElement = some ⟨t.doc.nextNodeId, eid⟩ ∧
      (SolidMounter.mount L p eid t).disp = some t.handles.next ∧
      (⟨t.handles.next, ⟨t.doc.nextNodeId, eid⟩, false, some (L, p)⟩ : HandleRec) ∈
        (SolidMounter.mount L p eid t).handles.created) := by
  constructor
  · have hg : needNewElement s.rootElement eid = true :=
      needNewElement_of_absent s.doc s.rootElement eid hf hatt
    rw [ReactMounter.mount_create s L p eid hg hf]
    refine ⟨_, rfl, ?_, rfl, rfl, ?_⟩
    · simp [Doc.createAppend]
    · exact Handles.createRoot_render_mem s.handles ⟨s.doc.nextNodeId, eid⟩ (L, p)
  · have hg : needNewElement t.rootElement eid = true :=
      needNewElement_of_absent t.doc t.rootElement eid htf htatt
    rw [SolidMounter.solid_mount_create t L p eid hg htf]
    refine ⟨?_, rfl, rfl, ?_⟩
    · simp [Doc.createAppend]
    · have hnext := Handles.disposeOpt_next t.handles t.disp
      have := Handles.solidRender_mem (t.handles.disposeOpt t.disp) (L, p)
        ⟨t.doc.nextNodeId, eid⟩
      rw [hnext] at this
      exact this

/-- Witness for C8: mounting into the empty initial document with
`mount(Layout, {content: "X"}, "app-root")` in both variants. -/
theorem c8_witness :
    (∃ s1, ReactMounter.mount "Layout" [("content", "X")] "app-root" ReactState.init =
        Except.ok s1 ∧
      s1.doc.body = ReactState.init.doc.body ++ [⟨ReactState.init.doc.nextNodeId, "app-root"⟩] ∧
      s1.rootElement = some ⟨ReactState.init.doc.nextNodeId, "app-root"⟩ ∧
      s1.root = some ReactState.init.handles.next ∧
      (⟨ReactState.init.handles.next, ⟨ReactState.init.doc.nextNodeId, "app-root"⟩, false,
        some ("Layout", [("content", "X")])⟩ : HandleRec) ∈ s1.handles.created) ∧
    ((SolidMounter.mount "Layout" [("content", "X")] "app-root" SolidState.init).doc.body =
        SolidState.init.doc.body ++ [⟨SolidState.init.doc.nextNodeId, "app-root"⟩] ∧
      (SolidMounter.mount "Layout" [("content", "X")] "app-root" SolidState.init).rootElement =
        some ⟨SolidState.init.doc.nextNodeId, "app-root"⟩ ∧
      (SolidMounter.mount "Layout" [("content", "X")] "app-root" SolidState.init).disp =
        some SolidState.init.handles.next ∧
      (⟨SolidState.init.handles.next, ⟨SolidState.init.doc.nextNodeId, "app-root"⟩, false,
        some ("Layout", [("content", "X")])⟩ : HandleRec) ∈
        (SolidMounter.mount "Layout" [("content", "X")] "app-root"
          SolidState.init).handles.created) :=
  c8_mount_creates_and_renders ReactState.init SolidState.init "Layout"
    [("content", "X")] "app-root" (by decide) (by decide) (by decide) (by decide)

/-! ### Cleanup lemmas and C9 -/

theorem Doc.filter_eq_self_of_not_contains (d : Doc) (e : Node)
    (hc : d.containsNode e = false) :
    d.body.filter (fun m => m.nodeId != e.nodeId) = d.body := by
  rw [List.filter_eq_self]
  intro m hm
  rw [Doc.containsNode, List.any_eq_false] at hc
  simpa using hc m hm

theorem ReactMounter.unmount_doc (s : ReactState) :
    (ReactMounter.unmount s).doc = s.doc := by
  unfold ReactMounter.unmount
  cases hr : s.root <;> simp [hr]

theorem ReactMounter.unmount_rootElement (s : ReactState) :
    (ReactMounter.unmount s).rootElement = s.rootElement := by
  unfold ReactMounter.unmount
  cases hr : s.root <;> simp [hr]

theorem SolidMounter.solid_unmount_doc (t : SolidState) :
    (SolidMounter.unmount t).doc = t.doc := by
  unfold SolidMounter.unmount
  cases hd : t.disp <;> simp [hd]

theorem SolidMounter.solid_unmount_rootElement (t : SolidState) :
    (SolidMounter.unmount t).rootElement = t.rootElement := by
  unfold SolidMounter.unmount
  cases hd : t.disp <;> simp [hd]

theorem ReactMounter.cleanup_doc_body (s : ReactState) :
    (ReactMounter.cleanup s).doc.body =
      (match s.rootElement with
        | some e => s.doc.body.filter (fun m => m.nodeId != e.nodeId)
        | none => s.doc.body) := by
  have hre := ReactMounter.unmount_rootElement s
  have hdoc := ReactMounter.unmount_doc s
  unfold ReactMounter.cleanup
  cases he : s.rootElement with
  | none =>
    rw [he] at hre
    simp only [hre, hdoc]
  | some e =>
    rw [he] at hre
    by_cases hc : s.doc.containsNode e = true
    · simp [hre, hdoc, Doc.removeNode, hc]
    · rw [Bool.not_eq_true] at hc
      simp [hre, hdoc, hc]
      exact (Doc.filter_eq_self_of_not_contains s.doc e hc).symm

theorem SolidMounter.solid_cleanup_doc_body (t : SolidState) :
    (SolidMounter.cleanup t).doc.body =
      (match t.rootElement with
        | some e => t.doc.body.filter (fun m => m.nodeId != e.nodeId)
        | none => t.doc.body) := by
  have hre := SolidMounter.solid_unmount_rootElement t
  have hdoc := SolidMounter.solid_unmount_doc t
  unfold SolidMounter.cleanup
  cases he : t.rootElement with
  | none =>
    rw [he] at hre
    simp only [hre, hdoc]
  | some e =>
    rw [he] at hre
    by_cases hc : t.doc.containsNode e = true
    · simp [hre, hdoc, Doc.removeNode, hc]
    · rw [Bool.not_eq_true] at hc
      simp [hre, hdoc, hc]
      exact (Doc.filter_eq_self_of_not_contains t.doc e hc).symm

theorem ReactMounter.cleanup_handles (s : ReactState) :
    (ReactMounter.cleanup s).handles = (ReactMounter.unmount s).handles := by
  unfold ReactMounter.cleanup
  cases he : (ReactMounter.unmount s).rootElement
  · simp [he]
  · simp only [he]
    split <;> rfl

theorem SolidMounter.solid_cleanup_handles (t : SolidState) :
    (SolidMounter.cleanup t).handles = (SolidMounter.unmount t).handles := by
  unfold SolidMounter.cleanup
  cases he : (SolidMounter.unmount t).rootElement
  · simp [he]
  · simp only [he]
    split <;> rfl

theorem ReactMounter.cleanup_handles_next (s : ReactState) :
    (ReactMounter.cleanup s).handles.next = s.handles.next := by
  rw [ReactMounter.cleanup_handles]
  unfold ReactMounter.unmount
  cases hr : s.root <;> simp [hr, Handles.dispose]

theorem SolidMounter.solid_cleanup_handles_next (t : SolidState) :
    (SolidMounter.cleanup t).handles.next = t.handles.next := by
  rw [SolidMounter.solid_cleanup_handles]
  unfold SolidMounter.unmount
  cases hd : t.disp <;> simp [hd, Handles.dispose]

theorem ReactMounter.cleanup_nextNodeId (s : ReactState) :
    (ReactMounter.cleanup s).doc.nextNodeId = s.doc.nextNodeId := by
  have hdoc := ReactMounter.unmount_doc s
  unfold ReactMounter.cleanup
  cases he : (ReactMounter.unmount s).rootElement
  · simp [he, hdoc]
  · simp only [he]
    split <;> simp [Doc.removeNode, hdoc]

theorem SolidMounter.solid_cleanup_nextNodeId (t : SolidState) :
    (SolidMounter.cleanup t).doc.nextNodeId = t.doc.nextNodeId := by
  have hdoc := SolidMounter.solid_unmount_doc t
  unfold SolidMounter.cleanup
  cases he : (SolidMounter.unmount t).rootElement
  · simp [he, hdoc]
  · simp only [he]
    split <;> simp [Doc.removeNode, hdoc]

theorem ReactMounter.cleanup_absent (s : ReactState) (eid : String)
    (honly : ∀ n ∈ s.doc.body, n.elemId = eid → s.rootElement = some n) :
    (ReactMounter.cleanup s).doc.getElementById eid = none := by
  rw [Doc.getElementById, List.find?_eq_none]
  intro n hn
  rw [ReactMounter.cleanup_doc_body] at hn
  intro hbeq
  have heq : n.elemId = eid := by simpa using hbeq
  cases he : s.rootElement with
  | none =>
    simp only [he] at hn
    have := honly n hn heq
    rw [he] at this
    cases this
  | some e =>
    simp only [he] at hn
    obtain ⟨hn1, hn2⟩ := List.mem_filter.mp hn
    have h2 := honly n hn1 heq
    rw [he] at h2
    have he2 : e = n := by injection h2
    subst he2
    simp at hn2

theorem SolidMounter.solid_cleanup_absent (t : SolidState) (eid : String)
    (honly : ∀ n ∈ t.doc.body, n.elemId = eid → t.rootElement = some n) :
    (SolidMounter.cleanup t).doc.getElementById eid = none := by
  rw [Doc.getElementById, List.find?_eq_none]
  intro n hn
  rw [SolidMounter.solid_cleanup_doc_body] at hn
  intro hbeq
  have heq : n.elemId = eid := by simpa using hbeq
  cases he : t.rootElement with
  | none =>
    simp only [he] at hn
    have := honly n hn heq
    rw [he] at this
    cases this
  | some e =>
    simp only [he] at hn
    obtain ⟨hn1, hn2⟩ := List.mem_filter.mp hn
    have h2 := honly n hn1 heq
    rw [he] at h2
    have he2 : e = n := by injection h2
    subst he2
    simp at hn2

/-- C9: after `cleanup` removed the container, the next `mount` with the same
elementId recreates the container from scratch: a fresh element (one not in the
pre-cleanup document) with that id is created, appended to the body, and
rendered into, in both variants.  The hypotheses say the stored container was
the only element carrying that id and that node identities are bounded by the
freshness counter — both hold in every reachable state. -/
theorem c9_cleanup_then_mount_recreates (s : ReactState) (t : SolidState) (L : String)
    (p : List (String × String)) (eid : String)
    (honly : ∀ n ∈ s.doc.body, n.elemId = eid → s.rootElement = some n)
    (hfresh : ∀ n ∈ s.doc.body, n.nodeId < s.doc.nextNodeId)
    (htonly : ∀ n ∈ t.doc.body, n.elemId = eid → t.rootElement = some n)
    (htfresh : ∀ n ∈ t.doc.body, n.nodeId < t.doc.nextNodeId) :
    ((⟨s.doc.nextNodeId, eid⟩ : Node) ∉ s.doc.body ∧
      ∃ s1, ReactMounter.mount L p eid (ReactMounter.cleanup s) = Except.ok s1 ∧
        s1.doc.body = (ReactMounter.cleanup s).doc.body ++ [⟨s.doc.nextNodeId, eid⟩] ∧
        s1.rootElement = some ⟨s.doc.nextNodeId, eid⟩ ∧
        s1.root = some s.handles.next ∧
        (⟨s.handles.next, ⟨s.doc.nextNodeId, eid⟩, false, some (L, p)⟩ : HandleRec) ∈
          s1.handles.created) ∧
    ((⟨t.doc.nextNodeId, eid⟩ : Node) ∉ t.doc.body ∧
      (SolidMounter.mount L p eid (SolidMounter.cleanup t)).doc.body =
        (SolidMounter.cleanup t).doc.body ++ [⟨t.doc.nextNodeId, eid⟩] ∧
      (SolidMounter.mount L p eid (SolidMounter.cleanup t)).rootElement =
        some ⟨t.doc.nextNodeId, eid⟩ ∧
      (SolidMounter.mount L p eid (SolidMounter.cleanup t)).disp = some t.handles.next ∧
      (⟨t.handles.next, ⟨t.doc.nextNodeId, eid⟩, false, some (L, p)⟩ : HandleRec) ∈
        (SolidMounter.mount L p eid (SolidMounter.cleanup t)).handles.created) := by
  constructor
  · have hf2 : (ReactMounter.cleanup s).doc.getElementById eid = none :=
      ReactMounter.cleanup_absent s eid honly
    have hatt2 : ∀ e ∈ (ReactMounter.cleanup s).rootElement,
        e ∈ (ReactMounter.cleanup s).doc.body := by
      rw [(ReactMounter.cleanup_root s).2]
      intro e he
      cases he
    have hg : needNewElement (ReactMounter.cleanup s).rootElement eid = true :=
      needNewElement_of_absent (ReactMounter.cleanup s).doc
        (ReactMounter.cleanup s).rootElement eid hf2 hatt2
    have hnn := ReactMounter.cleanup_nextNodeId s
    have hhn := ReactMounter.cleanup_handles_next s
    constructor
    · intro hmem
      exact absurd (hfresh _ hmem) (by simp)
    · rw [ReactMounter.mount_create _ L p eid hg hf2]
      refine ⟨_, rfl, ?_, ?_, ?_, ?_⟩
      · simp [Doc.createAppend, hnn]
      · simp [hnn]
      · simp [hhn]
      · rw [← hnn, ← hhn]
        exact Handles.createRoot_render_mem (ReactMounter.cleanup s).handles
          ⟨(ReactMounter.cleanup s).doc.nextNodeId, eid⟩ (L, p)
  · have hf2 : (SolidMounter.cleanup t).doc.getElementById eid = none :=
      SolidMounter.solid_cleanup_absent t eid htonly
    have hatt2 : ∀ e ∈ (SolidMounter.cleanup t).rootElement,
        e ∈ (SolidMounter.cleanup t).doc.body := by
      rw [(SolidMounter.cleanup_disp t).2]
      intro e he
      cases he
    have hg : needNewElement (SolidMounter.cleanup t).rootElement eid = true :=
      needNewElement_of_absent (SolidMounter.cleanup t).doc
        (SolidMounter.cleanup t).rootElement eid hf2 hatt2
    have hnn := SolidMounter.solid_cleanup_nextNodeId t
    have hhn := SolidMounter.solid_cleanup_handles_next t
    constructor
    · intro hmem
      exact absurd (htfresh _ hmem) (by simp)
    · rw [SolidMounter.solid_mount_create _ L p eid hg hf2]
      refine ⟨?_, ?_, ?_, ?_⟩
      · simp [Doc.createAppend, hnn]
      · simp [hnn]
      · simp [hhn]
      · have hEq : ((SolidMounter.cleanup t).handles.disposeOpt
            (SolidMounter.cleanup t).disp).next = t.handles.next :=
          (Handles.disposeOpt_next (SolidMounter.cleanup t).handles
            (SolidMounter.cleanup t).disp).trans hhn
        rw [← hnn, ← hEq]
        exact Handles.solidRender_mem
          ((SolidMounter.cleanup t).handles.disposeOpt (SolidMounter.cleanup t).disp) (L, p)
          ⟨(SolidMounter.cleanup t).doc.nextNodeId, eid⟩

/-- A concrete React state with one mounted root, used to instantiate
hypothesis-bearing theorems. -/
def sEx : ReactState :=
  ⟨⟨[⟨0, "app"⟩], 1⟩, ⟨1, [⟨0, ⟨0, "app"⟩, false, some ("L", [])⟩]⟩, some 0, some ⟨0, "app"⟩⟩

/-- Witness for C9 at concrete mounted states: cleanup then re-mount of
elementId "app" recreates the container. -/
theorem c9_witness :
    ((⟨sEx.doc.nextNodeId, "app"⟩ : Node) ∉ sEx.doc.body ∧
      ∃ s1, ReactMounter.mount "M" [] "app" (ReactMounter.cleanup sEx) = Except.ok s1 ∧
        s1.doc.body = (ReactMounter.cleanup sEx).doc.body ++ [⟨sEx.doc.nextNodeId, "app"⟩] ∧
        s1.rootElement = some ⟨sEx.doc.nextNodeId, "app"⟩ ∧
        s1.root = some sEx.handles.next ∧
        (⟨sEx.handles.next, ⟨sEx.doc.nextNodeId, "app"⟩, false, some ("M", [])⟩ : HandleRec) ∈
          s1.handles.created) ∧
    ((⟨tEx.doc.nextNodeId, "app"⟩ : Node) ∉ tEx.doc.body ∧
      (SolidMounter.mount "M" [] "app" (SolidMounter.cleanup tEx)).doc.body =
        (SolidMounter.cleanup tEx).doc.body ++ [⟨tEx.doc.nextNodeId, "app"⟩] ∧
      (SolidMounter.mount "M" [] "app" (SolidMounter.cleanup tEx)).rootElement =
        some ⟨tEx.doc.nextNodeId, "app"⟩ ∧
      (SolidMounter.mount "M" [] "app" (SolidMounter.cleanup tEx)).disp =
        some tEx.handles.next ∧
      (⟨tEx.handles.next, ⟨tEx.doc.nextNodeId, "app"⟩, false, some ("M", [])⟩ : HandleRec) ∈
        (SolidMounter.mount "M" [] "app" (SolidMounter.cleanup tEx)).handles.created) :=
  c9_cleanup_then_mount_recreates sEx tEx "M" [] "app" (by decide) (by decide) (by decide)
    (by decide)

/-! ### countId lemmas and C3 -/

theorem Doc.countId_eq_one_of_mem (d : Doc) (eid : String) (e : Node)
    (hmem : e ∈ d.body) (hid : e.elemId = eid) (hle : d.countId eid ≤ 1) :
    d.countId eid = 1 := by
  have hpos : 0 < d.countId eid := by
    rw [Doc.countId, List.length_pos]
    intro hnil
    have hmf : e ∈ d.body.filter (fun n => n.elemId == eid) :=
      List.mem_filter.mpr ⟨hmem, by simp [hid]⟩
    rw [hnil] at hmf
    cases hmf
  omega

theorem Doc.countId_zero_of_absent (d : Doc) (eid : String)
    (hf : d.getElementById eid = none) : d.countId eid = 0 := by
  rw [Doc.getElementById, List.find?_eq_none] at hf
  rw [Doc.countId, List.length_eq_zero, List.filter_eq_nil_iff]
  exact hf

theorem Doc.countId_createAppend (d : Doc) (eid : String) :
    ((d.createAppend eid).2).countId eid = d.countId eid + 1 := by
  rw [Doc.createAppend, Doc.countId, Doc.countId]
  simp [List.filter_append]

theorem needNewElement_false_elim (re : Option Node) (eid : String)
    (hg : ¬ needNewElement re eid = true) : ∃ e, re = some e ∧ e.elemId = eid := by
  revert hg
  cases re with
  | none => intro hg; exact absurd rfl hg
  | some e =>
    intro hg2
    refine ⟨e, rfl, ?_⟩
    simpa [needNewElement] using hg2

theorem ReactMounter.mount_establish (s : ReactState) (L : String)
    (p : List (String × String)) (eid : String) (s1 : ReactState)
    (hatt : ∀ e ∈ s.rootElement, e ∈ s.doc.body)
    (hcount : s.doc.countId eid ≤ 1)
    (hok : ReactMounter.mount L p eid s = Except.ok s1) :
    s1.doc.countId eid = 1 ∧
    (∃ e, s1.rootElement = some e ∧ e.elemId = eid ∧ e ∈ s1.doc.body) ∧
    (∃ h, s1.root = some h) := by
  by_cases hg : needNewElement s.rootElement eid = true
  · cases hf : s.doc.getElementById eid with
    | some e =>
      rw [ReactMounter.mount_found s e L p eid hg hf] at hok
      injection hok with h1
      subst h1
      have hmem := List.mem_of_find?_eq_some hf
      have hid : e.elemId = eid := by simpa using List.find?_some hf
      exact ⟨Doc.countId_eq_one_of_mem s.doc eid e hmem hid hcount,
        ⟨e, rfl, hid, hmem⟩, ⟨s.handles.next, rfl⟩⟩
    | none =>
      rw [ReactMounter.mount_create s L p eid hg hf] at hok
      injection hok with h1
      subst h1
      refine ⟨?_, ⟨⟨s.doc.nextNodeId, eid⟩, rfl, rfl, ?_⟩, ⟨s.handles.next, rfl⟩⟩
      · show ((s.doc.createAppend eid).2).countId eid = 1
        rw [Doc.countId_createAppend, Doc.countId_zero_of_absent s.doc eid hf]
      · show (⟨s.doc.nextNodeId, eid⟩ : Node) ∈ (s.doc.createAppend eid).2.body
        rw [Doc.createAppend]
        simp
  · obtain ⟨e, he, hid⟩ := needNewElement_false_elim s.rootElement eid hg
    cases hr : s.root with
    | none =>
      rw [ReactMounter.mount_nullRender s e L p eid he hid hr] at hok
      cases hok
    | some h =>
      rw [ReactMounter.mount_skip s e h L p eid he hid hr] at hok
      injection hok with h1
      subst h1
      have hmem : e ∈ s.doc.body := hatt e he
      exact ⟨Doc.countId_eq_one_of_mem s.doc eid e hmem hid hcount,
        ⟨e, he, hid, hmem⟩, ⟨h, hr⟩⟩

theorem ReactMounter.mountSeq_stable (calls : List Content) (eid : String) (s : ReactState)
    (e : Node) (h : Nat) (he : s.rootElement = some e) (hid : e.elemId = eid)
    (hr : s.root = some h) :
    ∃ s2, ReactMounter.mountSeq calls eid s = Except.ok s2 ∧
      s2.doc = s.doc ∧ s2.rootElement = some e ∧ s2.root = some h := by
  induction calls generalizing s with
  | nil => exact ⟨s, rfl, rfl, he, hr⟩
  | cons c rest ih =>
    obtain ⟨s2, hseq, hdoc, hre, hrt⟩ :=
      ih { s with handles := s.handles.render h (c.1, c.2) } he hr
    refine ⟨s2, ?_, hdoc, hre, hrt⟩
    simp only [ReactMounter.mountSeq]
    rw [ReactMounter.mount_skip s e h c.1 c.2 eid he hid hr]
    simpa [Except.bind] using hseq

theorem SolidMounter.solid_mount_establish (t : SolidState) (L : String)
    (p : List (String × String)) (eid : String)
    (hatt : ∀ e ∈ t.rootElement, e ∈ t.doc.body)
    (hcount : t.doc.countId eid ≤ 1) :
    (SolidMounter.mount L p eid t).doc.countId eid = 1 ∧
    (∃ e, (SolidMounter.mount L p eid t).rootElement = some e ∧ e.elemId = eid) := by
  by_cases hg : needNewElement t.rootElement eid = true
  · cases hf : t.doc.getElementById eid with
    | some e =>
      rw [SolidMounter.solid_mount_found t e L p eid hg hf]
      have hmem := List.mem_of_find?_eq_some hf
      have hid : e.elemId = eid := by simpa using List.find?_some hf
      exact ⟨Doc.countId_eq_one_of_mem t.doc eid e hmem hid hcount, e, rfl, hid⟩
    | none =>
      rw [SolidMounter.solid_mount_create t L p eid hg hf]
      refine ⟨?_, ⟨t.doc.nextNodeId, eid⟩, rfl, rfl⟩
      show ((t.doc.createAppend eid).2).countId eid = 1
      rw [Doc.countId_createAppend, Doc.countId_zero_of_absent t.doc eid hf]
  · obtain ⟨e, he, hid⟩ := needNewElement_false_elim t.rootElement eid hg
    rw [SolidMounter.solid_mount_skip t e L p eid he hid]
    exact ⟨Doc.countId_eq_one_of_mem t.doc eid e (hatt e he) hid hcount, e, rfl, hid⟩

theorem SolidMounter.solid_mountSeq_stable (calls : List Content) (eid : String) (t : SolidState)
    (e : Node) (he : t.rootElement = some e) (hid : e.elemId = eid) :
    (SolidMounter.mountSeq calls eid t).doc = t.doc ∧
    (SolidMounter.mountSeq calls eid t).rootElement = some e := by
  induction calls generalizing t with
  | nil => exact ⟨rfl, he⟩
  | cons c rest ih =>
    simp only [SolidMounter.mountSeq]
    rw [SolidMounter.solid_mount_skip t e c.1 c.2 eid he hid]
    exact ih _ rfl

/-- C3 counterexample: the claim also asserts that repeated mounts with an
unchanged elementId reuse the existing render handle, and it cites the Solid
variant; but a Solid same-id remount does not reuse the handle.  Concretely:
after `mount("L",{},"app")` the stored disposer is handle 0; remounting with
the same id "app" disposes handle 0 and stores the fresh handle 1. -/
theorem c3_solid_handle_not_reused_counterexample :
    (SolidMounter.mount "L" [] "app" SolidState.init).disp = some 0 ∧
    (SolidMounter.mount "M" [] "app"
      (SolidMounter.mount "L" [] "app" SolidState.init)).disp = some 1 ∧
    (SolidMounter.mount "M" [] "app"
      (SolidMounter.mount "L" [] "app" SolidState.init)).handles.disposedAt 0 := by
  refine ⟨rfl, rfl, ?_⟩
  decide

/-- C3 amended: after any successful mount, every further sequence of mount
calls with the same elementId leaves exactly one container element with that
id in the document, never touching the document again (no duplicate, no
recreation) and keeping the stored container; the React variant additionally
keeps the stored render handle across such calls, while the Solid variant
disposes and recreates the handle at each call (see the counterexample). -/
theorem c3_same_id_mounts_one_container (s : ReactState) (t : SolidState) (L : String)
    (p : List (String × String)) (eid : String) (calls : List Content) (s1 : ReactState)
    (hatt : ∀ e ∈ s.rootElement, e ∈ s.doc.body)
    (hcount : s.doc.countId eid ≤ 1)
    (htatt : ∀ e ∈ t.rootElement, e ∈ t.doc.body)
    (htcount : t.doc.countId eid ≤ 1)
    (hok : ReactMounter.mount L p eid s = Except.ok s1) :
    (s1.doc.countId eid = 1 ∧
      ∃ s2, ReactMounter.mountSeq calls eid s1 = Except.ok s2 ∧
        s2.doc = s1.doc ∧ s2.rootElement = s1.rootElement ∧ s2.root = s1.root ∧
        s2.doc.countId eid = 1) ∧
    ((SolidMounter.mount L p eid t).doc.countId eid = 1 ∧
      (SolidMounter.mountSeq calls eid (SolidMounter.mount L p eid t)).doc =
        (SolidMounter.mount L p eid t).doc ∧
      (SolidMounter.mountSeq calls eid (SolidMounter.mount L p eid t)).rootElement =
        (SolidMounter.mount L p eid t).rootElement ∧
      (SolidMounter.mountSeq calls eid
        (SolidMounter.mount L p eid t)).doc.countId eid = 1) := by
  constructor
  · obtain ⟨hc1, ⟨e, hre, hid, hmem⟩, ⟨h, hrt⟩⟩ :=
      ReactMounter.mount_establish s L p eid s1 hatt hcount hok
    obtain ⟨s2, hseq, hdoc, hre2, hrt2⟩ :=
      ReactMounter.mountSeq_stable calls eid s1 e h hre hid hrt
    refine ⟨hc1, s2, hseq, hdoc, ?_, ?_, ?_⟩
    · rw [hre2, hre]
    · rw [hrt2, hrt]
    · rw [hdoc]; exact hc1
  · obtain ⟨hc1, ⟨e, hre, hid⟩⟩ := SolidMounter.solid_mount_establish t L p eid htatt htcount
    obtain ⟨hdoc, hre2⟩ := SolidMounter.solid_mountSeq_stable calls eid _ e hre hid
    refine ⟨hc1, hdoc, ?_, ?_⟩
    · rw [hre2, hre]
    · rw [hdoc]; exact hc1

/-- Witness for C3's amended theorem: first mount of "app" from the empty
initial state in both variants, followed by two further same-id mounts. -/
theorem c3_witness :
    (sEx.doc.countId "app" = 1 ∧
      ∃ s2, ReactMounter.mountSeq [("M", []), ("N", [])] "app" sEx = Except.ok s2 ∧
        s2.doc = sEx.doc ∧ s2.rootElement = sEx.rootElement ∧ s2.root = sEx.root ∧
        s2.doc.countId "app" = 1) ∧
    ((SolidMounter.mount "L" [] "app" SolidState.init).doc.countId "app" = 1 ∧
      (SolidMounter.mountSeq [("M", []), ("N", [])] "app"
        (SolidMounter.mount "L" [] "app" SolidState.init)).doc =
        (SolidMounter.mount "L" [] "app" SolidState.init).doc ∧
      (SolidMounter.mountSeq [("M", []), ("N", [])] "app"
        (SolidMounter.mount "L" [] "app" SolidState.init)).rootElement =
        (SolidMounter.mount "L" [] "app" SolidState.init).rootElement ∧
      (SolidMounter.mountSeq [("M", []), ("N", [])] "app"
        (SolidMounter.mount "L" [] "app" SolidState.init)).doc.countId "app" = 1) :=
  c3_same_id_mounts_one_container ReactState.init SolidState.init "L" [] "app"
    [("M", []), ("N", [])] sEx (by decide) (by decide) (by decide) (by decide) rfl

/-! ### Single-id histories and C6 -/

theorem Handles.liveHids_eq_nil (hs : Handles)
    (hyp : ∀ r ∈ hs.created, r.disposed = true) : hs.liveHids = [] := by
  rw [Handles.liveHids]
  have hfil : hs.created.filter (fun r => !r.disposed) = [] := by
    simp only [List.filter_eq_nil_iff]
    intro r hr
    simp [hyp r hr]
  rw [hfil]
  rfl

theorem Handles.render_live_pred (hs : Handles) (h0 h : Nat) (c : Content)
    (hyp : ∀ r ∈ hs.created, r.disposed = false → r.hid = h) :
    ∀ r ∈ (hs.render h0 c).created, r.disposed = false → r.hid = h := by
  intro r hr hrd
  rw [Handles.render] at hr
  simp only [List.mem_map] at hr
  obtain ⟨r0, hr0, rfl⟩ := hr
  by_cases hh : r0.hid = h0
  · have := hyp r0 hr0 (by simpa [hh] using hrd)
    simpa [hh] using this
  · have := hyp r0 hr0 (by simpa [hh] using hrd)
    simpa [hh] using this

theorem ReactMounter.unmount_handles_some (s : ReactState) (h : Nat)
    (hr : s.root = some h) :
    (ReactMounter.unmount s).handles = s.handles.dispose h := by
  unfold ReactMounter.unmount
  simp [hr]

theorem SolidMounter.solid_unmount_handles_some (t : SolidState) (h : Nat)
    (hd : t.disp = some h) :
    (SolidMounter.unmount t).handles = t.handles.dispose h := by
  unfold SolidMounter.unmount
  simp [hd]

theorem SolidMounter.unmount_none (t : SolidState) (hd : t.disp = none) :
    SolidMounter.unmount t = t := by
  unfold SolidMounter.unmount
  simp [hd]

/-- State reached by a nonempty history of same-id mounts in the React
variant: one container in the document, both refs set, and every live handle
is the stored one. -/
def ReactSingle (eid : String) (s : ReactState) : Prop :=
  ∃ n h, s.doc.body = [n] ∧ s.rootElement = some n ∧ n.elemId = eid ∧ s.root = some h ∧
    (∀ r ∈ s.handles.created, r.disposed = false → r.hid = h)

theorem ReactSingle_first (L : String) (p : List (String × String)) (eid : String) :
    ∃ s1, ReactMounter.mount L p eid ReactState.init = Except.ok s1 ∧ ReactSingle eid s1 := by
  rw [ReactMounter.mount_create ReactState.init L p eid rfl rfl]
  refine ⟨_, rfl, ⟨0, eid⟩, 0, rfl, rfl, rfl, rfl, ?_⟩
  intro r hr hrd
  simp only [ReactState.init, Handles.createRoot, Handles.render, Doc.createAppend,
    List.nil_append, List.map_cons, List.map_nil, List.mem_singleton] at hr
  subst hr
  simp_all

theorem ReactSingle_step (eid : String) (s : ReactState) (c : Content)
    (hs : ReactSingle eid s) :
    ∃ s1, ReactMounter.mount c.1 c.2 eid s = Except.ok s1 ∧ ReactSingle eid s1 := by
  obtain ⟨n, h, hbody, hre, hne, hrt, hlive⟩ := hs
  exact ⟨_, ReactMounter.mount_skip s n h c.1 c.2 eid hre hne hrt,
    n, h, hbody, hre, hne, hrt, Handles.render_live_pred s.handles h h (c.1, c.2) hlive⟩

theorem ReactMounter.mountSeq_single (calls : List Content) (eid : String) (s : ReactState)
    (hs : ReactSingle eid s) :
    ∃ s2, ReactMounter.mountSeq calls eid s = Except.ok s2 ∧ ReactSingle eid s2 := by
  induction calls generalizing s with
  | nil => exact ⟨s, rfl, hs⟩
  | cons c rest ih =>
    obtain ⟨s1, hok, hs1⟩ := ReactSingle_step eid s c hs
    obtain ⟨s2, hseq, hs2⟩ := ih s1 hs1
    refine ⟨s2, ?_, hs2⟩
    simp only [ReactMounter.mountSeq]
    rw [hok]
    simpa [Except.bind] using hseq

theorem ReactMounter.cleanup_single (eid : String) (s : ReactState)
    (hs : ReactSingle eid s) :
    (ReactMounter.cleanup s).doc.body = [] ∧
    (ReactMounter.cleanup s).handles.liveHids = [] := by
  obtain ⟨n, h, hbody, hre, hne, hrt, hlive⟩ := hs
  constructor
  · rw [ReactMounter.cleanup_doc_body]
    simp only [hre]
    rw [hbody]
    simp
  · rw [ReactMounter.cleanup_handles, ReactMounter.unmount_handles_some s h hrt]
    exact Handles.liveHids_dispose_nil s.handles h hlive

theorem ReactMounter.cleanup_after_seq (calls : List Content) (eid : String)
    (s1 : ReactState)
    (hok : ReactMounter.mountSeq calls eid ReactState.init = Except.ok s1) :
    (ReactMounter.cleanup s1).doc.body = [] ∧
    (ReactMounter.cleanup s1).handles.liveHids = [] := by
  cases calls with
  | nil =>
    simp only [ReactMounter.mountSeq] at hok
    injection hok with h1
    subst h1
    exact ⟨rfl, rfl⟩
  | cons c rest =>
    simp only [ReactMounter.mountSeq] at hok
    obtain ⟨sFirst, hfirst, hsingle⟩ := ReactSingle_first c.1 c.2 eid
    rw [hfirst] at hok
    simp only [Except.bind] at hok
    obtain ⟨s2, hseq, hs2⟩ := ReactMounter.mountSeq_single rest eid sFirst hsingle
    rw [hseq] at hok
    injection hok with h1
    subst h1
    exact ReactMounter.cleanup_single eid s2 hs2

/-- State reached by a nonempty history of same-id mounts in the Solid
variant: the invariant plus one container in the document. -/
def SolidSingle (eid : String) (t : SolidState) : Prop :=
  SolidInv t ∧ ∃ n, t.doc.body = [n] ∧ t.rootElement = some n ∧ n.elemId = eid

theorem SolidSingle_first (L : String) (p : List (String × String)) (eid : String) :
    SolidSingle eid (SolidMounter.mount L p eid SolidState.init) := by
  constructor
  · exact (SolidMounter.mount_inv SolidState.init L p eid (by decide)).1
  · rw [SolidMounter.solid_mount_create SolidState.init L p eid rfl rfl]
    exact ⟨⟨0, eid⟩, rfl, rfl, rfl⟩

theorem SolidSingle_step (eid : String) (t : SolidState) (c : Content)
    (ht : SolidSingle eid t) : SolidSingle eid (SolidMounter.mount c.1 c.2 eid t) := by
  obtain ⟨hinv, n, hbody, hre, hne⟩ := ht
  refine ⟨(SolidMounter.mount_inv t c.1 c.2 eid hinv).1, n, ?_, ?_, hne⟩
  · rw [SolidMounter.solid_mount_skip t n c.1 c.2 eid hre hne]
    exact hbody
  · rw [SolidMounter.solid_mount_skip t n c.1 c.2 eid hre hne]

theorem SolidMounter.solid_mountSeq_single (calls : List Content) (eid : String) (t : SolidState)
    (ht : SolidSingle eid t) : SolidSingle eid (SolidMounter.mountSeq calls eid t) := by
  induction calls generalizing t with
  | nil => exact ht
  | cons c rest ih =>
    simp only [SolidMounter.mountSeq]
    exact ih _ (SolidSingle_step eid t c ht)

theorem SolidMounter.solid_cleanup_single (eid : String) (t : SolidState)
    (ht : SolidSingle eid t) :
    (SolidMounter.cleanup t).doc.body = [] ∧
    (SolidMounter.cleanup t).handles.liveHids = [] := by
  obtain ⟨⟨hwf, hbound, hlive⟩, n, hbody, hre, hne⟩ := ht
  constructor
  · rw [SolidMounter.solid_cleanup_doc_body]
    simp only [hre]
    rw [hbody]
    simp
  · rw [SolidMounter.solid_cleanup_handles]
    cases hd : t.disp with
    | some h =>
      rw [SolidMounter.solid_unmount_handles_some t h hd]
      refine Handles.liveHids_dispose_nil t.handles h ?_
      intro r hr hrd
      have := hlive r hr hrd
      rw [hd] at this
      exact (Option.some_inj.mp this).symm
    | none =>
      rw [SolidMounter.unmount_none t hd]
      refine Handles.liveHids_eq_nil t.handles ?_
      intro r hr
      cases hrd : r.disposed with
      | false =>
        have := hlive r hr hrd
        rw [hd] at this
        cases this
      | true => rfl

theorem SolidMounter.solid_cleanup_after_seq (calls : List Content) (eid : String) :
    (SolidMounter.cleanup (SolidMounter.mountSeq calls eid SolidState.init)).doc.body = [] ∧
    (SolidMounter.cleanup
      (SolidMounter.mountSeq calls eid SolidState.init)).handles.liveHids = [] := by
  cases calls with
  | nil => exact ⟨rfl, rfl⟩
  | cons c rest =>
    simp only [SolidMounter.mountSeq]
    exact SolidMounter.solid_cleanup_single eid _
      (SolidMounter.solid_mountSeq_single rest eid _ (SolidSingle_first c.1 c.2 eid))

/-- C6 counterexample: the claim says that from any state, after `cleanup`
neither a rendered tree nor a container element exists, leaving state
equivalent to never having mounted.  But in the React variant after
`mount(A,{},"a")`, `mount(B,{},"b")`, `cleanup()` the document still holds the
orphaned container with id "a" and render handle 0 is still live (never
disposed) — not the never-mounted state. -/
theorem c6_cleanup_leaves_orphans_counterexample :
    ((ReactMounter.mount "A" [] "a" ReactState.init).bind
      (ReactMounter.mount "B" [] "b")).map
      (fun s => ((ReactMounter.cleanup s).doc.body.map Node.elemId,
        (ReactMounter.cleanup s).handles.liveHids)) =
    Except.ok (["a"], [0]) := by
  rfl

/-- C6 amended: `cleanup` always disposes the stored render handle, removes
the stored container from the document body, and clears both stored
references; and when the whole history is mounts with a single elementId from
the empty initial state, the post-cleanup observables equal the never-mounted
ones (empty document body, no live render handle).  Containers — and, in the
React variant, render handles — orphaned by an earlier elementId change
survive `cleanup` (see the counterexample). -/
theorem c6_cleanup_effects (s : ReactState) (t : SolidState) (eid : String)
    (calls : List Content) :
    (ReactMounter.cleanup s).root = none ∧
    (ReactMounter.cleanup s).rootElement = none ∧
    (∀ h, s.root = some h → (ReactMounter.cleanup s).handles = s.handles.dispose h) ∧
    (∀ e, s.rootElement = some e →
      (ReactMounter.cleanup s).doc.body =
        s.doc.body.filter (fun m => m.nodeId != e.nodeId)) ∧
    (∀ s1, ReactMounter.mountSeq calls eid ReactState.init = Except.ok s1 →
      (ReactMounter.cleanup s1).doc.body = [] ∧
      (ReactMounter.cleanup s1).handles.liveHids = []) ∧
    (SolidMounter.cleanup t).disp = none ∧
    (SolidMounter.cleanup t).rootElement = none ∧
    (∀ h, t.disp = some h → (SolidMounter.cleanup t).handles = t.handles.dispose h) ∧
    (∀ e, t.rootElement = some e →
      (SolidMounter.cleanup t).doc.body =
        t.doc.body.filter (fun m => m.nodeId != e.nodeId)) ∧
    ((SolidMounter.cleanup (SolidMounter.mountSeq calls eid SolidState.init)).doc.body = [] ∧
      (SolidMounter.cleanup
        (SolidMounter.mountSeq calls eid SolidState.init)).handles.liveHids = []) := by
  refine ⟨(ReactMounter.cleanup_root s).1, (ReactMounter.cleanup_root s).2, ?_, ?_,
    fun s1 hok => ReactMounter.cleanup_after_seq calls eid s1 hok,
    (SolidMounter.cleanup_disp t).1, (SolidMounter.cleanup_disp t).2, ?_, ?_,
    SolidMounter.solid_cleanup_after_seq calls eid⟩
  · intro h hr
    rw [ReactMounter.cleanup_handles, ReactMounter.unmount_handles_some s h hr]
  · intro e he
    rw [ReactMounter.cleanup_doc_body]
    simp only [he]
  · intro h hd
    rw [SolidMounter.solid_cleanup_handles, SolidMounter.solid_unmount_handles_some t h hd]
  · intro e he
    rw [SolidMounter.solid_cleanup_doc_body]
    simp only [he]

end Mantra

